import Mathlib

/-!
Verification of the unravelsports tracking-frame-to-graph conversion engine.

Shallow embedding of:
* `unravel/soccer/graphs/graph_converter_pl.py` (`SoccerGraphConverterPolars`):
  `_apply_filters`, `_apply_padding`, `_sport_specific_checks`, the group
  integrity check at the start of `__compute`, and the chunked
  `to_graph_frames` conversion;
* `unravel/utils/objects/custom_spektral_dataset.py`
  (`CustomSpektralDataset.split_test_train_validation`).

Python dataframes become `List Row`; polars expressions become pure list
operations; numpy float columns become `ℚ`; Python dynamic values that the
validation code type-checks become the `PyVal` sum type; fallible paths
return `Option`/`Except` or an explicit error constructor.
-/

namespace Unravel

/-- Converter settings relevant to filtering (from `GraphSettingsPolars` /
`DefaultSettings`): the ball sentinel identifier and the speed/acceleration
bounds for the ball and for players. -/
structure Settings where
  ball_id : String
  max_player_speed : ℚ
  max_ball_speed : ℚ
  max_player_acceleration : ℚ
  max_ball_acceleration : ℚ
deriving DecidableEq

/-- One tracking row (one entity observation at one instant), with the
columns the converter reads: grouping keys, kept categorical columns,
the entity id, and the numeric motion columns. -/
structure Row where
  game_id : Nat
  period_id : Nat
  frame_id : Nat
  team_id : String
  ball_owning_team_id : String
  timestamp : Int
  ball_state : String
  position_name : String
  label : Int
  graph_id : String
  id : String
  x : ℚ
  y : ℚ
  z : ℚ
  vx : ℚ
  vy : ℚ
  vz : ℚ
  v : ℚ
  ax : ℚ
  ay : ℚ
  az : ℚ
  a : ℚ
deriving DecidableEq

/-! ### FrameFilter (`SoccerGraphConverterPolars._apply_filters`)

The source applies two `with_columns` passes: one `pl.when` chain rewriting
`v`, then one rewriting `a`.  Each chain is a per-row conditional. -/

/-- The first `with_columns` of `_apply_filters`: clamp the scalar speed `v`
to the ball bound (rows whose identifier equals the ball sentinel) or the
player bound (all other rows), leaving in-bound values unchanged. -/
def clampSpeed (s : Settings) (r : Row) : Row :=
  { r with v :=
      if r.team_id = s.ball_id ∧ s.max_ball_speed < r.v then s.max_ball_speed
      else if r.team_id ≠ s.ball_id ∧ s.max_player_speed < r.v then s.max_player_speed
      else r.v }

/-- The second `with_columns` of `_apply_filters`: the same clamp for the
scalar acceleration `a` against the acceleration bounds. -/
def clampAccel (s : Settings) (r : Row) : Row :=
  { r with a :=
      if r.team_id = s.ball_id ∧ s.max_ball_acceleration < r.a then s.max_ball_acceleration
      else if r.team_id ≠ s.ball_id ∧ s.max_player_acceleration < r.a then s.max_player_acceleration
      else r.a }

/-- `_apply_filters`: the speed pass followed by the acceleration pass,
both applied row-wise over the whole dataset. -/
def applyFilters (s : Settings) (rows : List Row) : List Row :=
  (rows.map (clampSpeed s)).map (clampAccel s)

/-- The class speed bound of a row: ball bound for the ball sentinel,
player bound otherwise. -/
def speedBound (s : Settings) (r : Row) : ℚ :=
  if r.team_id = s.ball_id then s.max_ball_speed else s.max_player_speed

/-- The class acceleration bound of a row. -/
def accelBound (s : Settings) (r : Row) : ℚ :=
  if r.team_id = s.ball_id then s.max_ball_acceleration else s.max_player_acceleration

theorem clampSpeed_le (s : Settings) (r : Row) : (clampSpeed s r).v ≤ speedBound s r := by
  unfold clampSpeed speedBound
  by_cases hb : r.team_id = s.ball_id
  all_goals simp only [hb, ne_eq, not_true_eq_false, not_false_eq_true, true_and,
    false_and, if_false, if_true, if_pos, if_neg, ite_true, ite_false]
  all_goals split_ifs with h1
  · exact le_refl _
  · exact le_of_not_lt h1
  · exact le_refl _
  · exact le_of_not_lt h1

theorem clampAccel_le (s : Settings) (r : Row) : (clampAccel s r).a ≤ accelBound s r := by
  unfold clampAccel accelBound
  by_cases hb : r.team_id = s.ball_id
  all_goals simp only [hb, ne_eq, not_true_eq_false, not_false_eq_true, true_and,
    false_and, if_false, if_true, if_pos, if_neg, ite_true, ite_false]
  all_goals split_ifs with h1
  · exact le_refl _
  · exact le_of_not_lt h1
  · exact le_refl _
  · exact le_of_not_lt h1

theorem clampSpeed_id_of_le (s : Settings) (r : Row) (h : r.v ≤ speedBound s r) :
    (clampSpeed s r).v = r.v := by
  unfold clampSpeed
  unfold speedBound at h
  by_cases hb : r.team_id = s.ball_id
  all_goals simp only [hb, ne_eq, not_true_eq_false, not_false_eq_true, true_and,
    false_and, if_false, if_true, ite_true, ite_false] at h ⊢
  all_goals split_ifs with h1
  · exact absurd h1 (not_lt.mpr h)
  · rfl
  · exact absurd h1 (not_lt.mpr h)
  · rfl

theorem clampAccel_id_of_le (s : Settings) (r : Row) (h : r.a ≤ accelBound s r) :
    (clampAccel s r).a = r.a := by
  unfold clampAccel
  unfold accelBound at h
  by_cases hb : r.team_id = s.ball_id
  all_goals simp only [hb, ne_eq, not_true_eq_false, not_false_eq_true, true_and,
    false_and, if_false, if_true, ite_true, ite_false] at h ⊢
  all_goals split_ifs with h1
  · exact absurd h1 (not_lt.mpr h)
  · rfl
  · exact absurd h1 (not_lt.mpr h)
  · rfl

theorem clampSpeed_team (s : Settings) (r : Row) : (clampSpeed s r).team_id = r.team_id := rfl
theorem clampSpeed_a (s : Settings) (r : Row) : (clampSpeed s r).a = r.a := rfl
theorem clampAccel_v (s : Settings) (r : Row) : (clampAccel s r).v = r.v := rfl

/-- C4: for every row of the input row set, after `_apply_filters` the row at
position `i` is exactly the clamp of the input row at position `i` (so the
clamp is pointwise, independent of every other row); its speed is at most the
class speed bound and its acceleration at most the class acceleration bound
(ball bounds when the identifier equals the ball sentinel, player bounds
otherwise); and a row whose speed (resp. acceleration) already lies within
the bound keeps its original value. -/
theorem applyFilters_clamps (s : Settings) (rows : List Row) (i : Nat) (r : Row)
    (h : rows[i]? = some r) :
    (applyFilters s rows)[i]? = some (clampAccel s (clampSpeed s r)) ∧
    (clampAccel s (clampSpeed s r)).v ≤ speedBound s r ∧
    (clampAccel s (clampSpeed s r)).a ≤ accelBound s r ∧
    (r.v ≤ speedBound s r → (clampAccel s (clampSpeed s r)).v = r.v) ∧
    (r.a ≤ accelBound s r → (clampAccel s (clampSpeed s r)).a = r.a) := by
  refine ⟨?_, ?_, ?_, ?_, ?_⟩
  · simp [applyFilters, List.getElem?_map, h]
  · rw [clampAccel_v]
    exact clampSpeed_le s r
  · have h1 : (clampAccel s (clampSpeed s r)).a ≤ accelBound s (clampSpeed s r) :=
      clampAccel_le s (clampSpeed s r)
    simpa [accelBound, clampSpeed_team] using h1
  · intro hv
    rw [clampAccel_v]
    exact clampSpeed_id_of_le s r hv
  · intro ha
    have : accelBound s (clampSpeed s r) = accelBound s r := by
      simp [accelBound, clampSpeed_team]
    have h2 := clampAccel_id_of_le s (clampSpeed s r) (by rw [this, clampSpeed_a]; exact ha)
    rw [h2, clampSpeed_a]

/-- Concrete demonstration row for the filter claim. -/
def sampleSettings : Settings :=
  { ball_id := "ball", max_player_speed := 12, max_ball_speed := 28
    max_player_acceleration := 6, max_ball_acceleration := 27/2 }

/-- Concrete player row with out-of-bound speed 50 and in-bound acceleration 3. -/
def sampleRow : Row :=
  { game_id := 1, period_id := 1, frame_id := 7, team_id := "home",
    ball_owning_team_id := "home", timestamp := 0, ball_state := "alive",
    position_name := "CB", label := 1, graph_id := "g1", id := "p9",
    x := 10, y := 5, z := 0, vx := 3, vy := 4, vz := 0, v := 50,
    ax := 1, ay := 2, az := 0, a := 3 }

/-- Witness for C4 at a concrete input. -/
theorem applyFilters_clamps_witness :
    (applyFilters sampleSettings [sampleRow])[0]? =
      some (clampAccel sampleSettings (clampSpeed sampleSettings sampleRow)) ∧
    (clampAccel sampleSettings (clampSpeed sampleSettings sampleRow)).v ≤
      speedBound sampleSettings sampleRow ∧
    (clampAccel sampleSettings (clampSpeed sampleSettings sampleRow)).a ≤
      accelBound sampleSettings sampleRow ∧
    (sampleRow.v ≤ speedBound sampleSettings sampleRow →
      (clampAccel sampleSettings (clampSpeed sampleSettings sampleRow)).v = sampleRow.v) ∧
    (sampleRow.a ≤ accelBound sampleSettings sampleRow →
      (clampAccel sampleSettings (clampSpeed sampleSettings sampleRow)).a = sampleRow.a) :=
  applyFilters_clamps sampleSettings [sampleRow] 0 sampleRow rfl

/-! ### FramePadder (`SoccerGraphConverterPolars._apply_padding`)

The source groups the dataframe by
`['game_id', 'period_id', 'frame_id', 'team_id', 'ball_owning_team_id']`,
computes a target cardinality per group (1 for the ball group, 11 otherwise),
appends `target - count` copies of a synthetic row for every short group
(categorical columns taken from the group's first row via `pl.first`, the
`empty_columns` set to `0.0`, or the string sentinel `"None"` for
string-typed columns), and — unless it returned early because no group was
short — keeps only the frames that pass the completeness re-check, warning
about the dropped count. -/

/-- Padding group key: `(game_id, period_id, frame_id, team_id, ball_owning_team_id)`. -/
abbrev GroupKey := Nat × Nat × Nat × String × String

def groupKey (r : Row) : GroupKey :=
  (r.game_id, r.period_id, r.frame_id, r.team_id, r.ball_owning_team_id)

/-- Frame key: `(game_id, period_id, frame_id)`. -/
abbrev FrameKey := Nat × Nat × Nat

def frameKey (r : Row) : FrameKey := (r.game_id, r.period_id, r.frame_id)

/-- Target cardinality of a padding group: 1 when the group's `team_id` is
the ball sentinel, 11 otherwise (the `when/then/otherwise` chain assigns 11
both to the owning team and to any other team). -/
def targetLength : GroupKey → Nat
  | (_, _, _, t, _) => if t = "ball" then 1 else 11

/-- The distinct padding group keys, in first-encounter order. -/
def groupKeys (rows : List Row) : List GroupKey := (rows.map groupKey).dedup

/-- The rows of one padding group, in original order. -/
def groupRows (rows : List Row) (k : GroupKey) : List Row :=
  rows.filter (fun r => decide (groupKey r = k))

/-- One synthetic padding row: grouping columns from the group key, the
`keep_columns` (`timestamp`, `ball_state`, `position_name`, `label`,
`graph_id`) from an existing row of the group, and the `empty_columns`
(`id`, `x`, `y`, `z`, `vx`, `vy`, `vz`, `v`, `ax`, `ay`, `az`, `a`) set to
`0.0`, with the string sentinel `"None"` for the string-typed `id`. -/
def syntheticRow : GroupKey → Row → Row
  | (g, p, f, t, o), base =>
    { game_id := g, period_id := p, frame_id := f, team_id := t,
      ball_owning_team_id := o,
      timestamp := base.timestamp, ball_state := base.ball_state,
      position_name := base.position_name, label := base.label,
      graph_id := base.graph_id,
      id := "None",
      x := 0, y := 0, z := 0, vx := 0, vy := 0, vz := 0, v := 0,
      ax := 0, ay := 0, az := 0, a := 0 }

/-- The synthetic rows contributed by one group: `target - count` copies of
the synthetic row when the group is short of target, nothing otherwise. -/
def padRowsFor (rows : List Row) (k : GroupKey) : List Row :=
  match (groupRows rows k).head? with
  | none => []
  | some base =>
    if (groupRows rows k).length < targetLength k then
      List.replicate (targetLength k - (groupRows rows k).length) (syntheticRow k base)
    else []

/-- Whether any group is short of its target (`len(groups_to_pad) > 0`). -/
def paddingNeeded (rows : List Row) : Bool :=
  (groupKeys rows).any (fun k => decide ((groupRows rows k).length < targetLength k))

/-- The vertical concat of the input with all synthetic rows. -/
def paddedRows (rows : List Row) : List Row :=
  rows ++ (groupKeys rows).flatMap (padRowsFor rows)

/-- The distinct frame keys, in first-encounter order. -/
def frameKeys (rows : List Row) : List FrameKey := (rows.map frameKey).dedup

/-- The rows of one frame. -/
def frameRows (rows : List Row) (fk : FrameKey) : List Row :=
  rows.filter (fun r => decide (frameKey r = fk))

/-- The structural completeness re-check of one frame: exactly one ball row,
exactly 11 rows whose team is the owning team, and exactly 11 rows that are
neither the ball nor the owning team. -/
def isComplete (frows : List Row) : Bool :=
  (frows.countP (fun r => decide (r.team_id = "ball")) == 1) &&
  (frows.countP (fun r => decide (r.team_id = r.ball_owning_team_id)) == 11) &&
  (frows.countP (fun r => decide (¬r.team_id = "ball" ∧ ¬r.team_id = r.ball_owning_team_id)) == 11)

/-- `_apply_padding`: early return of the unchanged input when no group is
short; otherwise pad, re-check every frame of the padded result, keep only
the complete frames (the inner join), and report `(dropped, total)` as a
warning when any frame was dropped.  The second component models the
emitted warning. -/
def applyPadding (rows : List Row) : List Row × Option (Nat × Nat) :=
  if paddingNeeded rows = false then (rows, none)
  else
    let result := paddedRows rows
    let total := (frameKeys result).length
    let completeKeys := (frameKeys result).filter (fun fk => isComplete (frameRows result fk))
    let dropped := total - completeKeys.length
    (result.filter (fun r => decide (frameKey r ∈ completeKeys)),
     if 0 < dropped then some (dropped, total) else none)

/-- A frame consisting of a single ball row: no padding group is short
(the ball group's target is 1), so `_apply_padding` returns early. -/
def ballOnlyRow : Row :=
  { game_id := 1, period_id := 1, frame_id := 1, team_id := "ball",
    ball_owning_team_id := "home", timestamp := 0, ball_state := "alive",
    position_name := "ball", label := 0, graph_id := "g1", id := "b1",
    x := 1, y := 2, z := 0, vx := 0, vy := 0, vz := 0, v := 0,
    ax := 0, ay := 0, az := 0, a := 0 }

/-- C5 counterexample: on an input whose only frame is structurally
incomplete (a lone ball row, no team rows) but where no group is short of
its target, `_apply_padding` returns the input unchanged with no warning —
the incomplete frame is *not* re-checked and *not* excluded, contradicting
the claim that every frame failing the completeness check is excluded from
the output. -/
theorem applyPadding_keeps_incomplete_frame :
    applyPadding [ballOnlyRow] = ([ballOnlyRow], none) ∧
    isComplete (frameRows (applyPadding [ballOnlyRow]).1 (frameKey ballOnlyRow)) = false := by
  decide

theorem mem_frameKeys_of_mem (rows : List Row) (r : Row) (hr : r ∈ rows) :
    frameKey r ∈ frameKeys rows := by
  unfold frameKeys
  rw [List.mem_dedup]
  exact List.mem_map_of_mem frameKey hr

/-- C5 as amended: whenever at least one padding group is short of its
target — so the early return path is not taken — `_apply_padding` re-checks
every frame of the padded result for structural completeness: a row appears
in the output exactly when it belongs to the padded result and its frame
passes the check (so every frame failing the check is excluded); the
warning carries `(dropped, total)` exactly when at least one frame was
dropped, where `total` counts the distinct frames of the padded result and
`dropped` those failing the check; and the outcome is always an ordinary
value, never a raised error. -/
theorem applyPadding_drops_incomplete (rows : List Row) (h : paddingNeeded rows = true) :
    (∀ r : Row, r ∈ (applyPadding rows).1 ↔
        r ∈ paddedRows rows ∧
        isComplete (frameRows (paddedRows rows) (frameKey r)) = true) ∧
    ((applyPadding rows).2 = none ↔
        ∀ fk ∈ frameKeys (paddedRows rows),
          isComplete (frameRows (paddedRows rows) fk) = true) ∧
    (∀ d t, (applyPadding rows).2 = some (d, t) →
        t = (frameKeys (paddedRows rows)).length ∧
        d = t - ((frameKeys (paddedRows rows)).filter
            (fun fk => isComplete (frameRows (paddedRows rows) fk))).length ∧
        0 < d) := by
  have happ : applyPadding rows =
      ((paddedRows rows).filter (fun r => decide (frameKey r ∈
          (frameKeys (paddedRows rows)).filter
            (fun fk => isComplete (frameRows (paddedRows rows) fk)))),
        if 0 < (frameKeys (paddedRows rows)).length -
            ((frameKeys (paddedRows rows)).filter
              (fun fk => isComplete (frameRows (paddedRows rows) fk))).length then
          some ((frameKeys (paddedRows rows)).length -
              ((frameKeys (paddedRows rows)).filter
                (fun fk => isComplete (frameRows (paddedRows rows) fk))).length,
            (frameKeys (paddedRows rows)).length)
        else none) := by
    unfold applyPadding
    rw [h]
    simp
  refine ⟨?_, ?_, ?_⟩
  · intro r
    rw [happ]
    simp only [List.mem_filter, decide_eq_true_eq]
    constructor
    · rintro ⟨hrp, _, hc⟩
      exact ⟨hrp, hc⟩
    · rintro ⟨hrp, hc⟩
      exact ⟨hrp, mem_frameKeys_of_mem _ r hrp, hc⟩
  · rw [happ]
    have hle : ((frameKeys (paddedRows rows)).filter
        (fun fk => isComplete (frameRows (paddedRows rows) fk))).length ≤
        (frameKeys (paddedRows rows)).length := List.length_filter_le _ _
    constructor
    · intro hnone
      by_cases hd : 0 < (frameKeys (paddedRows rows)).length -
          ((frameKeys (paddedRows rows)).filter
            (fun fk => isComplete (frameRows (paddedRows rows) fk))).length
      · rw [if_pos hd] at hnone
        exact absurd hnone (by simp)
      · have heq : ((frameKeys (paddedRows rows)).filter
            (fun fk => isComplete (frameRows (paddedRows rows) fk))).length =
            (frameKeys (paddedRows rows)).length := by omega
        intro fk hfk
        have := List.filter_length_eq_length.mp heq fk hfk
        simpa using this
    · intro hall
      have heq : ((frameKeys (paddedRows rows)).filter
          (fun fk => isComplete (frameRows (paddedRows rows) fk))).length =
          (frameKeys (paddedRows rows)).length := by
        apply List.filter_length_eq_length.mpr
        intro fk hfk
        simpa using hall fk hfk
      rw [heq]
      simp
  · intro d t hsome
    rw [happ] at hsome
    by_cases hd : 0 < (frameKeys (paddedRows rows)).length -
        ((frameKeys (paddedRows rows)).filter
          (fun fk => isComplete (frameRows (paddedRows rows) fk))).length
    · rw [if_pos hd] at hsome
      have hdt := Option.some.inj hsome
      have hd1 : d = (frameKeys (paddedRows rows)).length -
          ((frameKeys (paddedRows rows)).filter
            (fun fk => isComplete (frameRows (paddedRows rows) fk))).length :=
        (congrArg Prod.fst hdt).symm
      have ht1 : t = (frameKeys (paddedRows rows)).length :=
        (congrArg Prod.snd hdt).symm
      refine ⟨ht1, ?_, ?_⟩
      · rw [hd1, ht1]
      · rw [hd1]
        exact hd
    · rw [if_neg hd] at hsome
      exact absurd hsome (by simp)

theorem groupKey_syntheticRow (k : GroupKey) (b : Row) : groupKey (syntheticRow k b) = k := by
  rcases k with ⟨g, p, f, t, o⟩
  rfl

theorem groupRows_all_key (rows : List Row) (k : GroupKey) :
    ∀ r ∈ groupRows rows k, groupKey r = k := by
  intro r hr
  have := List.of_mem_filter hr
  simpa using this

theorem padRowsFor_all_key (rows : List Row) (k : GroupKey) :
    ∀ r ∈ padRowsFor rows k, groupKey r = k := by
  intro r hr
  unfold padRowsFor at hr
  split at hr
  · simp at hr
  · rename_i base hh
    split at hr
    · have := List.eq_of_mem_replicate hr
      rw [this]
      exact groupKey_syntheticRow k base
    · simp at hr

theorem padRowsFor_eq_replicate (rows : List Row) (k : GroupKey) (base : Row)
    (hbase : (groupRows rows k).head? = some base)
    (hshort : (groupRows rows k).length < targetLength k) :
    padRowsFor rows k =
      List.replicate (targetLength k - (groupRows rows k).length) (syntheticRow k base) := by
  unfold padRowsFor
  rw [hbase]
  show (if (groupRows rows k).length < targetLength k then
      List.replicate (targetLength k - (groupRows rows k).length) (syntheticRow k base)
    else []) = _
  rw [if_pos hshort]

theorem bind_filter_key (rows : List Row) (k : GroupKey) (L : List GroupKey)
    (hnodup : L.Nodup) (hmem : k ∈ L) :
    (L.flatMap (padRowsFor rows)).filter (fun r => decide (groupKey r = k)) =
      padRowsFor rows k := by
  induction L with
  | nil => simp at hmem
  | cons k' L' ih =>
    rw [List.flatMap_cons, List.filter_append]
    rcases List.nodup_cons.mp hnodup with ⟨hk', hL'⟩
    by_cases hkk : k' = k
    · subst hkk
      have h1 : (padRowsFor rows k').filter (fun r => decide (groupKey r = k')) =
          padRowsFor rows k' := by
        apply List.filter_eq_self.mpr
        intro r hr
        simpa using padRowsFor_all_key rows k' r hr
      have h2 : (L'.flatMap (padRowsFor rows)).filter (fun r => decide (groupKey r = k')) = [] := by
        apply List.filter_eq_nil_iff.mpr
        intro r hr
        rcases List.mem_flatMap.mp hr with ⟨k2, hk2, hrk2⟩
        have := padRowsFor_all_key rows k2 r hrk2
        simp only [decide_eq_true_eq, this]
        intro heq
        exact hk' (heq ▸ hk2)
      rw [h1, h2, List.append_nil]
    · have h1 : (padRowsFor rows k').filter (fun r => decide (groupKey r = k)) = [] := by
        apply List.filter_eq_nil_iff.mpr
        intro r hr
        have := padRowsFor_all_key rows k' r hr
        simp only [decide_eq_true_eq, this]
        exact hkk
      have hmem' : k ∈ L' := by
        rcases List.mem_cons.mp hmem with h | h
        · exact absurd h.symm hkk
        · exact h
      rw [h1, List.nil_append]
      exact ih hL' hmem'

/-- C6: for a padding group whose row count is below its target, the padded
dataframe's rows for that group are exactly the original group rows followed
by `target - count` identical synthetic rows; the synthetic row copies
`timestamp`, `ball_state`, `position_name` (role), `label` and `graph_id`
from an existing row of the group (its first row) and zeroes the numeric
motion columns (`"None"` for the string-typed entity id). -/
theorem paddedRows_pads_short_group (rows : List Row) (k : GroupKey) (base : Row)
    (hbase : (groupRows rows k).head? = some base)
    (hshort : (groupRows rows k).length < targetLength k) :
    groupRows (paddedRows rows) k =
      groupRows rows k ++
        List.replicate (targetLength k - (groupRows rows k).length) (syntheticRow k base) ∧
    base ∈ groupRows rows k ∧
    (syntheticRow k base).id = "None" ∧
    (syntheticRow k base).x = 0 ∧ (syntheticRow k base).y = 0 ∧
    (syntheticRow k base).z = 0 ∧ (syntheticRow k base).vx = 0 ∧
    (syntheticRow k base).vy = 0 ∧ (syntheticRow k base).vz = 0 ∧
    (syntheticRow k base).v = 0 ∧ (syntheticRow k base).ax = 0 ∧
    (syntheticRow k base).ay = 0 ∧ (syntheticRow k base).az = 0 ∧
    (syntheticRow k base).a = 0 ∧
    (syntheticRow k base).timestamp = base.timestamp ∧
    (syntheticRow k base).ball_state = base.ball_state ∧
    (syntheticRow k base).position_name = base.position_name ∧
    (syntheticRow k base).label = base.label ∧
    (syntheticRow k base).graph_id = base.graph_id := by
  have hbmem : base ∈ groupRows rows k := List.mem_of_mem_head? hbase
  have hkmem : k ∈ groupKeys rows := by
    have hb_rows : base ∈ rows := List.mem_of_mem_filter hbmem
    have hbk : groupKey base = k := groupRows_all_key rows k base hbmem
    unfold groupKeys
    rw [List.mem_dedup]
    exact hbk ▸ List.mem_map_of_mem groupKey hb_rows
  have hnodupKeys : (groupKeys rows).Nodup := by
    unfold groupKeys
    exact List.nodup_dedup _
  have hmain : groupRows (paddedRows rows) k =
      groupRows rows k ++
        List.replicate (targetLength k - (groupRows rows k).length) (syntheticRow k base) := by
    have hsplit : groupRows (paddedRows rows) k =
        groupRows rows k ++
          ((groupKeys rows).flatMap (padRowsFor rows)).filter (fun r => decide (groupKey r = k)) := by
      unfold groupRows paddedRows
      rw [List.filter_append]
    rw [hsplit, bind_filter_key rows k (groupKeys rows) hnodupKeys hkmem,
      padRowsFor_eq_replicate rows k base hbase hshort]
  rcases k with ⟨g, p, f, t, o⟩
  exact ⟨hmain, hbmem, rfl, rfl, rfl, rfl, rfl, rfl, rfl, rfl, rfl, rfl, rfl, rfl,
    rfl, rfl, rfl, rfl, rfl⟩

/-- A concrete outfield-player row on team `"home"`. -/
def teamRow : Row :=
  { game_id := 1, period_id := 1, frame_id := 1, team_id := "home",
    ball_owning_team_id := "home", timestamp := 3, ball_state := "alive",
    position_name := "CB", label := 1, graph_id := "g1", id := "p1",
    x := 4, y := 5, z := 0, vx := 1, vy := 1, vz := 0, v := 2,
    ax := 0, ay := 0, az := 0, a := 1 }

/-- Witness for the amended C5 at a concrete input: one lone outfield row,
whose team group (count 1, target 11) forces padding. -/
theorem applyPadding_drops_incomplete_witness :
    (∀ r : Row, r ∈ (applyPadding [teamRow]).1 ↔
        r ∈ paddedRows [teamRow] ∧
        isComplete (frameRows (paddedRows [teamRow]) (frameKey r)) = true) ∧
    ((applyPadding [teamRow]).2 = none ↔
        ∀ fk ∈ frameKeys (paddedRows [teamRow]),
          isComplete (frameRows (paddedRows [teamRow]) fk) = true) ∧
    (∀ d t, (applyPadding [teamRow]).2 = some (d, t) →
        t = (frameKeys (paddedRows [teamRow])).length ∧
        d = t - ((frameKeys (paddedRows [teamRow])).filter
            (fun fk => isComplete (frameRows (paddedRows [teamRow]) fk))).length ∧
        0 < d) :=
  applyPadding_drops_incomplete [teamRow] (by decide)

/-- Witness for C6: a team group with 9 rows (target 11) gains exactly 2
synthetic rows. -/
theorem paddedRows_pads_short_group_witness :
    groupRows (paddedRows (List.replicate 9 teamRow)) (groupKey teamRow) =
      groupRows (List.replicate 9 teamRow) (groupKey teamRow) ++
        List.replicate
          (targetLength (groupKey teamRow) -
            (groupRows (List.replicate 9 teamRow) (groupKey teamRow)).length)
          (syntheticRow (groupKey teamRow) teamRow) ∧
    teamRow ∈ groupRows (List.replicate 9 teamRow) (groupKey teamRow) ∧
    (syntheticRow (groupKey teamRow) teamRow).id = "None" ∧
    (syntheticRow (groupKey teamRow) teamRow).x = 0 ∧
    (syntheticRow (groupKey teamRow) teamRow).y = 0 ∧
    (syntheticRow (groupKey teamRow) teamRow).z = 0 ∧
    (syntheticRow (groupKey teamRow) teamRow).vx = 0 ∧
    (syntheticRow (groupKey teamRow) teamRow).vy = 0 ∧
    (syntheticRow (groupKey teamRow) teamRow).vz = 0 ∧
    (syntheticRow (groupKey teamRow) teamRow).v = 0 ∧
    (syntheticRow (groupKey teamRow) teamRow).ax = 0 ∧
    (syntheticRow (groupKey teamRow) teamRow).ay = 0 ∧
    (syntheticRow (groupKey teamRow) teamRow).az = 0 ∧
    (syntheticRow (groupKey teamRow) teamRow).a = 0 ∧
    (syntheticRow (groupKey teamRow) teamRow).timestamp = teamRow.timestamp ∧
    (syntheticRow (groupKey teamRow) teamRow).ball_state = teamRow.ball_state ∧
    (syntheticRow (groupKey teamRow) teamRow).position_name = teamRow.position_name ∧
    (syntheticRow (groupKey teamRow) teamRow).label = teamRow.label ∧
    (syntheticRow (groupKey teamRow) teamRow).graph_id = teamRow.graph_id :=
  paddedRows_pads_short_group (List.replicate 9 teamRow) (groupKey teamRow) teamRow
    (by decide) (by decide)

/-! ### FrameGraphAssembler integrity check (`SoccerGraphConverterPolars.__compute`)

The first two statements of `__compute` verify that the group's graph-id
column and (unless `prediction` is set) its label column each hold a single
value, raising an exception otherwise (`np.all(d[col] == d[col][0])`). -/

/-- Whether every element of the column equals its first element
(`np.all(arr == arr[0])`; vacuously true on the empty column). -/
def allEqHead {α : Type} [DecidableEq α] : List α → Bool
  | [] => true
  | x :: rest => rest.all (fun y => decide (y = x))

/-- The integrity check at the start of `__compute`: error when the graph-id
column holds more than one distinct value, then — only when prediction mode
is off — error when the label column holds more than one distinct value. -/
def computeGroupCheck {α β : Type} [DecidableEq α] [DecidableEq β]
    (prediction : Bool) (graphIds : List α) (labels : List β) : Except String Unit :=
  if allEqHead graphIds = false then
    .error "GraphId selection contains multiple different values."
  else if prediction = false ∧ allEqHead labels = false then
    .error "Label selection contains multiple different values for a single selection."
  else .ok ()

theorem allEqHead_eq_true_iff {α : Type} [DecidableEq α] (l : List α) :
    allEqHead l = true ↔ ∀ a ∈ l, ∀ b ∈ l, a = b := by
  cases l with
  | nil => simp [allEqHead]
  | cons x rest =>
    simp only [allEqHead, List.all_eq_true, decide_eq_true_eq]
    constructor
    · intro hall a ha b hb
      have hax : a = x := by
        rcases List.mem_cons.mp ha with h | h
        · exact h
        · exact hall a h
      have hbx : b = x := by
        rcases List.mem_cons.mp hb with h | h
        · exact h
        · exact hall b h
      rw [hax, hbx]
    · intro h y hy
      exact h y (List.mem_cons_of_mem x hy) x (List.mem_cons_self x rest)

theorem allEqHead_eq_false {α : Type} [DecidableEq α] {l : List α} {a b : α}
    (ha : a ∈ l) (hb : b ∈ l) (hab : a ≠ b) : allEqHead l = false := by
  apply Bool.eq_false_iff.mpr
  intro ht
  exact hab ((allEqHead_eq_true_iff l).mp ht a ha b hb)

/-- C1: for every frame group reaching `__compute`, if the group's graph-id
column holds two or more distinct values, or (when prediction mode is off)
its label column holds two or more distinct values, the check raises a hard
error — the group is never auto-resolved. -/
theorem computeGroupCheck_rejects_mixed {α β : Type} [DecidableEq α] [DecidableEq β]
    (prediction : Bool) (graphIds : List α) (labels : List β)
    (h : (∃ a ∈ graphIds, ∃ b ∈ graphIds, a ≠ b) ∨
         (prediction = false ∧ ∃ a ∈ labels, ∃ b ∈ labels, a ≠ b)) :
    ∃ msg, computeGroupCheck prediction graphIds labels = .error msg := by
  unfold computeGroupCheck
  by_cases hg : allEqHead graphIds = false
  · rw [if_pos hg]
    exact ⟨_, rfl⟩
  · rw [if_neg hg]
    rcases h with ⟨a, ha, b, hb, hab⟩ | ⟨hp, a, ha, b, hb, hab⟩
    · exact absurd (allEqHead_eq_false ha hb hab) hg
    · rw [if_pos ⟨hp, allEqHead_eq_false ha hb hab⟩]
      exact ⟨_, rfl⟩

/-- Witness for C1: with prediction off, a group whose graph-id column is
constant but whose label column is `[1, 1, 0]` fails the check. -/
theorem computeGroupCheck_rejects_mixed_witness :
    ∃ msg, computeGroupCheck false ["g1", "g1", "g1"] [(1 : Int), 1, 0] = .error msg :=
  computeGroupCheck_rejects_mixed false ["g1", "g1", "g1"] [(1 : Int), 1, 0]
    (Or.inr ⟨rfl, 1, by simp, 0, by simp, by decide⟩)

/-! ### SettingsCompiler (`SoccerGraphConverterPolars._sport_specific_checks`)

Python attribute values are dynamically typed; the validation code only
inspects their runtime type (`isinstance`) and truthiness, so they are
embedded as the sum type `PyVal`. -/

/-- A dynamically-typed Python value as seen by `_sport_specific_checks`. -/
inductive PyVal where
  | pyNone
  | pyBool (b : Bool)
  | pyInt (n : Int)
  | pyFloat (q : ℚ)
  | pyStr (s : String)
deriving DecidableEq

/-- `isinstance(v, str)`. -/
def PyVal.isStr : PyVal → Bool
  | .pyStr _ => true
  | _ => false

/-- `isinstance(v, int)` — Python `bool` is a subclass of `int`. -/
def PyVal.isInt : PyVal → Bool
  | .pyInt _ => true
  | .pyBool _ => true
  | _ => false

/-- `isinstance(v, float)`. -/
def PyVal.isFloat : PyVal → Bool
  | .pyFloat _ => true
  | _ => false

/-- Python truthiness of a value. -/
def PyVal.truthy : PyVal → Bool
  | .pyNone => false
  | .pyBool b => b
  | .pyInt n => decide (n ≠ 0)
  | .pyFloat q => decide (q ≠ 0)
  | .pyStr s => decide (s ≠ "")

/-- The string payload (the column-name checks only run after the value
passed the string type check). -/
def PyVal.strVal : PyVal → String
  | .pyStr s => s
  | _ => ""

/-- `_sport_specific_checks`, check for check in source order: `label_col`
string-typed, `graph_id_col` string-typed, `chunk_size` int-typed,
`label_col` present in the dataset columns unless prediction mode,
`graph_id_col` present in the dataset columns, `ball_carrier_threshold`
float-typed when truthy, `non_potential_receiver_node_value` float-typed
when truthy. -/
def sportSpecificChecks (label_col graph_id_col chunk_size : PyVal)
    (columns : List String) (prediction : Bool)
    (ball_carrier_threshold non_potential_receiver_node_value : PyVal) :
    Except String Unit :=
  if label_col.isStr = false then
    .error "label_col should be of type string (str)"
  else if graph_id_col.isStr = false then
    .error "graph_id_col should be of type string (str)"
  else if chunk_size.isInt = false then
    .error "chunk_size should be of type integer (int)"
  else if label_col.strVal ∉ columns ∧ prediction = false then
    .error "Please specify a label_col and add that column to your dataset or set prediction=True"
  else if graph_id_col.strVal ∉ columns then
    .error "Please specify a graph_id_col and add that column to your dataset"
  else if ball_carrier_threshold.truthy = true ∧ ball_carrier_threshold.isFloat = false then
    .error "ball_carrier_threshold should be of type float"
  else if non_potential_receiver_node_value.truthy = true ∧
      non_potential_receiver_node_value.isFloat = false then
    .error "non_potential_receiver_node_value should be of type float"
  else .ok ()

/-- C9 counterexample: with otherwise-valid settings, the int-typed chunk
sizes `0` and `-5` pass `_sport_specific_checks` without any error — the
claimed rejection of non-positive chunk sizes does not exist in the code
(only the `isinstance(chunk_size, int)` type check does). -/
theorem sportSpecificChecks_accepts_zero_chunk :
    sportSpecificChecks (.pyStr "label") (.pyStr "graph_id") (.pyInt 0)
      ["label", "graph_id"] false (.pyFloat 25) (.pyFloat 1) = .ok () ∧
    sportSpecificChecks (.pyStr "label") (.pyStr "graph_id") (.pyInt (-5))
      ["label", "graph_id"] false (.pyFloat 25) (.pyFloat 1) = .ok () :=
  ⟨rfl, rfl⟩

/-- C9 as amended: settings compilation rejects a chunk size that is not
int-typed with a configuration error (given type-valid column names, so the
earlier checks fall through), and among int-typed chunk sizes the validation
outcome never depends on the value — zero and negative integers validate
exactly like the positive integer 1, because no positivity check exists. -/
theorem sportSpecificChecks_chunk_type_only (lc gc : PyVal) (cols : List String)
    (pred : Bool) (th nv : PyVal) (v : PyVal) (n : Int)
    (hl : lc.isStr = true) (hg : gc.isStr = true) (hv : v.isInt = false) :
    sportSpecificChecks lc gc v cols pred th nv =
      .error "chunk_size should be of type integer (int)" ∧
    sportSpecificChecks lc gc (.pyInt n) cols pred th nv =
      sportSpecificChecks lc gc (.pyInt 1) cols pred th nv := by
  constructor
  · unfold sportSpecificChecks
    rw [hl, hg, hv]
    simp
  · rfl

/-- Witness for the amended C9: a float-typed chunk size is rejected, and
chunk size `-5` validates exactly like chunk size `1`. -/
theorem sportSpecificChecks_chunk_type_only_witness :
    sportSpecificChecks (.pyStr "label") (.pyStr "graph_id") (.pyFloat 3)
      ["label", "graph_id"] false (.pyFloat 25) (.pyFloat 1) =
      .error "chunk_size should be of type integer (int)" ∧
    sportSpecificChecks (.pyStr "label") (.pyStr "graph_id") (.pyInt (-5))
      ["label", "graph_id"] false (.pyFloat 25) (.pyFloat 1) =
      sportSpecificChecks (.pyStr "label") (.pyStr "graph_id") (.pyInt 1)
        ["label", "graph_id"] false (.pyFloat 25) (.pyFloat 1) :=
  sportSpecificChecks_chunk_type_only (.pyStr "label") (.pyStr "graph_id")
    ["label", "graph_id"] false (.pyFloat 25) (.pyFloat 1) (.pyFloat 3) (-5)
    rfl rfl rfl

/-! ### GraphDatasetPartitioner (`CustomSpektralDataset.split_test_train_validation`)

The proportions are Python floats, embedded as `ℚ`; `int()` truncation and
slice semantics are embedded explicitly.  The two numpy randomness sources
are oracles: `permFn` stands for the pure function
`np.random.RandomState(seed=s).permutation(n)` (a locally constructed,
seeded generator), while `gShuffle` stands for `np.random.shuffle` of the
sorted unique graph-id list under the ambient *global* generator state
(of abstract type `GS`), after the optional `np.random.seed(random_seed)`
call — the optional seed is passed to the oracle as its second argument. -/

/-- A value passed as `random_seed`: `None` (the default), a bool
(`split_test_train` passes `False`), or an integer.  `if random_seed:`
tests Python truthiness, so `None`, `False` and `0` all read as "no seed". -/
inductive PySeed where
  | pyNone
  | pyBool (b : Bool)
  | pyInt (n : Nat)
deriving DecidableEq

/-- Python truthiness of the seed value. -/
def PySeed.truthy : PySeed → Bool
  | .pyNone => false
  | .pyBool b => b
  | .pyInt n => decide (n ≠ 0)

/-- The integer numpy receives when the seed is truthy. -/
def PySeed.val : PySeed → Nat
  | .pyNone => 0
  | .pyBool b => if b then 1 else 0
  | .pyInt n => n

/-- Python `int()` truncation toward zero of a rational. -/
def pyTrunc (q : ℚ) : Int := if 0 ≤ q then ⌊q⌋ else ⌈q⌉

/-- Resolution of one Python slice endpoint against length `n`: negative
endpoints count from the end, and the result clamps into `[0, n]`. -/
def pyIdx (n : Nat) (i : Int) : Nat :=
  min (if 0 ≤ i then i else (n : Int) + i).toNat n

/-- Python slice `l[a:b]`. -/
def pySlice {α : Type} (l : List α) (a b : Int) : List α :=
  (l.take (pyIdx l.length b)).drop (pyIdx l.length a)

/-- `self[idxs]`: the graphs selected by a list of indices, in index order. -/
def select {G : Type} (graphs : List G) (idxs : List Nat) : List G :=
  idxs.filterMap (fun i => graphs[i]?)

/-- The subset sizes `(num_train, num_test, num_validation)`:
`num_train = int(train_pct * n)` always; when the validation percentage is
positive, `num_test = int(test_pct * n)` and validation receives the
remainder, otherwise test receives the remainder and validation is 0. -/
def splitNums (split_train split_test split_validation : ℚ) (n : Nat) : Int × Int × Int :=
  if 0 < split_validation / (split_train + split_test + split_validation) then
    (pyTrunc (split_train / (split_train + split_test + split_validation) * n),
      pyTrunc (split_test / (split_train + split_test + split_validation) * n),
      (n : Int) - pyTrunc (split_train / (split_train + split_test + split_validation) * n)
        - pyTrunc (split_test / (split_train + split_test + split_validation) * n))
  else
    (pyTrunc (split_train / (split_train + split_test + split_validation) * n),
      (n : Int) - pyTrunc (split_train / (split_train + split_test + split_validation) * n),
      0)

/-- The index order of the non-graph-id branch: the seeded permutation
`np.random.RandomState(seed=random_seed).permutation(n)` when the seed is
truthy, `np.arange(n)` otherwise. -/
def splitIdxList (seed : PySeed) (permFn : Nat → Nat → List Nat) (n : Nat) : List Nat :=
  if seed.truthy then permFn seed.val n else List.range n

/-- The outcome of `split_test_train_validation`: an exception, a 2-tuple
of datasets, or a 3-tuple of datasets. -/
inductive SplitResult (G : Type) where
  | err (msg : String)
  | two (train test : List G)
  | three (train test validation : List G)
deriving DecidableEq

/-- `unique_graph_ids == set([None])`: every graph's id reads as `None`
(and there is at least one graph). -/
def allNoneIds (ids : List (Option String)) : Bool :=
  decide (ids ≠ [] ∧ ∀ o ∈ ids, o = none)

/-- `graph_ids = np.asarray([g.get("id")[0] for g in self])`: the FIRST
CHARACTER of every graph's id (`"AB"[0] == "A"`), failing like the Python
`TypeError`/`IndexError` when an id is `None` or the empty string. -/
def idsTrunc : List (Option String) → Option (List String)
  | [] => some []
  | none :: _ => none
  | some s :: rest =>
    if s = "" then none
    else (idsTrunc rest).map (fun l => s.take 1 :: l)

/-- `np.where(graph_ids == graph_id)[0]`: the positions whose truncated id
equals the given full id, in ascending order. -/
def matchIdxs (truncIds : List String) (gid : String) : List Nat :=
  ((truncIds.enum).filter (fun p => decide (p.2 = gid))).map (fun p => p.1)

/-- One `while len(acc) < target` fill loop of the by-graph-id branch:
repeatedly take the next id from the shuffled unique-id list and extend the
accumulator with all positions matching it; `none` models the `IndexError`
raised when the list runs out before the target is reached. -/
def fillSplit (truncIds : List String) (shuffled : List String) (target : Nat)
    (acc : List Nat) : Option (List Nat × List String) :=
  if target ≤ acc.length then some (acc, shuffled)
  else
    match shuffled with
    | [] => none
    | gid :: rest => fillSplit truncIds rest target (acc ++ matchIdxs truncIds gid)

/-- The by-graph-id branch as index lists `(train, test, validation)`:
fill validation first, then test, from the shuffled unique-id list; train
receives the positions whose truncated id is among the ids never consumed
(`np.isin(graph_ids, list(unique_graph_ids))`). -/
def splitByGraphId (ids : List (Option String)) (shuffled : List String)
    (numValidation numTest : Nat) : Option (List Nat × List Nat × List Nat) := do
  let truncIds ← idsTrunc ids
  let (validationIdxs, rest1) ← fillSplit truncIds shuffled numValidation []
  let (testIdxs, rest2) ← fillSplit truncIds rest1 numTest []
  let trainIdxs := ((truncIds.enum).filter (fun p => decide (p.2 ∈ rest2))).map (fun p => p.1)
  some (trainIdxs, testIdxs, validationIdxs)

/-- The slicing of the non-graph-id branch: a 3-way contiguous slicing of
the index order when `num_validation > 0`, a 2-way slicing otherwise
(`idxs[:num_train]`, `idxs[num_train:num_train+num_test]`, …). -/
def splitNoGid {G : Type} (graphs : List G) (idxs : List Nat)
    (nums : Int × Int × Int) : SplitResult G :=
  if 0 < nums.2.2 then
    .three (select graphs (pySlice idxs 0 nums.1))
      (select graphs (pySlice idxs nums.1 (nums.1 + nums.2.1)))
      (select graphs (pySlice idxs (nums.1 + nums.2.1) (nums.1 + nums.2.1 + nums.2.2)))
  else
    .two (select graphs (pySlice idxs 0 nums.1))
      (select graphs (pySlice idxs nums.1 graphs.length))

/-- `CustomSpektralDataset.split_test_train_validation`: zero total raises
`ZeroDivisionError`; the ratio-ordering check runs only with
`by_graph_id=True`; when every graph id is `None` the branch flag falls
back to `False` (with a `NoGraphIdsWarning`, not modeled in the value);
the non-graph-id branch slices an (optionally seeded-permuted) index
order, and the by-graph-id branch consumes the shuffled sorted unique-id
list — a 2-tuple is returned whenever the validation index list ends up
empty (`if validation_idxs:`). -/
def splitTestTrainValidation {G GS : Type} (graphs : List G) (getId : G → Option String)
    (split_train split_test split_validation : ℚ) (by_graph_id : Bool)
    (random_seed : PySeed) (permFn : Nat → Nat → List Nat) (gstate : GS)
    (gShuffle : GS → Option Nat → List String → List String) : SplitResult G :=
  if split_train + split_test + split_validation = 0 then .err "ZeroDivisionError"
  else if by_graph_id = true ∧
      (split_train / (split_train + split_test + split_validation) <
          split_validation / (split_train + split_test + split_validation) ∨
        split_train / (split_train + split_test + split_validation) <
          split_test / (split_train + split_test + split_validation) ∨
        split_test / (split_train + split_test + split_validation) <
          split_validation / (split_train + split_test + split_validation)) then
    .err "Make sure split_train > split_test >= split_validation, other behaviour is not supported when by_graph_id is True..."
  else if (if allNoneIds (graphs.map getId) = true then false else by_graph_id) = false then
    splitNoGid graphs (splitIdxList random_seed permFn graphs.length)
      (splitNums split_train split_test split_validation graphs.length)
  else
    match splitByGraphId (graphs.map getId)
        (gShuffle gstate (if random_seed.truthy then some random_seed.val else none)
          (((graphs.map getId).filterMap (fun o => o)).dedup.mergeSort
            (fun a b => decide (a ≤ b))))
        (splitNums split_train split_test split_validation graphs.length).2.2.toNat
        (splitNums split_train split_test split_validation graphs.length).2.1.toNat with
    | none => .err "TypeError or IndexError"
    | some (trainIdxs, testIdxs, validationIdxs) =>
      if validationIdxs ≠ [] then
        .three (select graphs trainIdxs) (select graphs testIdxs)
          (select graphs validationIdxs)
      else
        .two (select graphs trainIdxs) (select graphs testIdxs)

theorem select_append {G : Type} (g : List G) (l1 l2 : List Nat) :
    select g (l1 ++ l2) = select g l1 ++ select g l2 :=
  List.filterMap_append l1 l2 _

theorem length_select {G : Type} (g : List G) (l : List Nat)
    (h : ∀ i ∈ l, i < g.length) : (select g l).length = l.length := by
  induction l with
  | nil => rfl
  | cons i t ih =>
    have hi : i < g.length := h i (List.mem_cons_self i t)
    unfold select at ih ⊢
    rw [List.filterMap_cons, List.getElem?_eq_getElem hi]
    simpa using ih (fun j hj => h j (List.mem_cons_of_mem i hj))

theorem select_perm {G : Type} (g : List G) {l1 l2 : List Nat} (h : l1.Perm l2) :
    (select g l1).Perm (select g l2) :=
  h.filterMap _

theorem select_range_eq_take {G : Type} (g : List G) (n : Nat) :
    select g (List.range n) = g.take n := by
  induction n with
  | zero => rfl
  | succ m ih =>
    rw [List.range_succ, select_append, ih, List.take_succ]
    unfold select
    rw [List.filterMap_cons]
    cases h : g[m]? <;> simp

theorem select_range' {G : Type} (g : List G) (k : Nat) :
    ∀ a : Nat, select g (List.range' a k) = (g.drop a).take k := by
  induction k with
  | zero => intro a; rfl
  | succ m ih =>
    intro a
    rw [List.range'_succ]
    unfold select at ih ⊢
    rw [List.filterMap_cons]
    by_cases ha : a < g.length
    · rw [List.getElem?_eq_getElem ha, List.drop_eq_getElem_cons ha, List.take_succ_cons, ih]
    · have hlen : g.length ≤ a := le_of_not_lt ha
      rw [List.getElem?_eq_none hlen, List.drop_eq_nil_of_le hlen]
      show List.filterMap (fun i => g[i]?) (List.range' (a + 1) m) = List.take (m + 1) []
      rw [ih (a + 1), List.drop_eq_nil_of_le (by omega)]
      simp

theorem drop_range (k n : Nat) : (List.range n).drop k = List.range' k (n - k) := by
  rcases le_or_lt k n with h | h
  · have happ : List.range' 0 k ++ List.range' k (n - k) = List.range' 0 n := by
      have := List.range'_append 0 k (n - k) 1
      simpa [Nat.add_comm, Nat.sub_add_cancel h] using this
    rw [List.range_eq_range', ← happ, List.drop_append_of_le_length (by simp),
      List.drop_eq_nil_of_le (by simp), List.nil_append]
  · rw [List.drop_eq_nil_of_le (by simpa using le_of_lt h), Nat.sub_eq_zero_of_le h.le]
    rfl

/-- Evaluation of `split_test_train_validation` with `by_graph_id=False`:
the call reduces to the non-graph-id slicing and never consults the global
generator state or the shuffle function. -/
theorem split_eval_no_gid {G GS : Type} (graphs : List G) (getId : G → Option String)
    (st ste sva : ℚ) (seed : PySeed) (permFn : Nat → Nat → List Nat) (gstate : GS)
    (gShuffle : GS → Option Nat → List String → List String)
    (ht : st + ste + sva ≠ 0) :
    splitTestTrainValidation graphs getId st ste sva false seed permFn gstate gShuffle =
      splitNoGid graphs (splitIdxList seed permFn graphs.length)
        (splitNums st ste sva graphs.length) := by
  unfold splitTestTrainValidation
  rw [if_neg ht, if_neg (by simp), if_pos (by simp [ite_self])]

/-- C8: with graph-id partitioning off, `split_test_train_validation` is a
pure function of the collection, the proportions and the seed — two calls
under arbitrarily different ambient global-generator states (and even
different shuffle semantics) return identical subsets, because the
non-graph-id branch only consults the locally seeded permutation. -/
theorem split_no_gid_deterministic {G GS1 GS2 : Type} (graphs : List G)
    (getId : G → Option String) (st ste sva : ℚ) (seed : PySeed)
    (permFn : Nat → Nat → List Nat) (g1 : GS1) (g2 : GS2)
    (sh1 : GS1 → Option Nat → List String → List String)
    (sh2 : GS2 → Option Nat → List String → List String) :
    splitTestTrainValidation graphs getId st ste sva false seed permFn g1 sh1 =
      splitTestTrainValidation graphs getId st ste sva false seed permFn g2 sh2 := by
  by_cases ht : st + ste + sva = 0
  · unfold splitTestTrainValidation
    rw [if_pos ht, if_pos ht]
  · rw [split_eval_no_gid graphs getId st ste sva seed permFn g1 sh1 ht,
      split_eval_no_gid graphs getId st ste sva seed permFn g2 sh2 ht]

theorem pyTrunc_of_nonneg (q : ℚ) (h : 0 ≤ q) : pyTrunc q = ⌊q⌋ := if_pos h

theorem splitNums_spec (st ste sva : ℚ) (n : Nat)
    (h0 : 0 ≤ st) (h1 : 0 ≤ ste) (h2 : 0 ≤ sva) (ht : 0 < st + ste + sva) :
    0 ≤ (splitNums st ste sva n).1 ∧
    0 ≤ (splitNums st ste sva n).2.1 ∧
    0 ≤ (splitNums st ste sva n).2.2 ∧
    (splitNums st ste sva n).1 + (splitNums st ste sva n).2.1 +
      (splitNums st ste sva n).2.2 = (n : Int) ∧
    (splitNums st ste sva n).1 = ⌊st / (st + ste + sva) * n⌋ ∧
    (0 < sva → (splitNums st ste sva n).2.1 = ⌊ste / (st + ste + sva) * n⌋ ∧
      (0 < n → 0 < (splitNums st ste sva n).2.2)) ∧
    (sva = 0 → (splitNums st ste sva n).2.2 = 0) := by
  have hq_tr : (0:ℚ) ≤ st / (st + ste + sva) * n :=
    mul_nonneg (div_nonneg h0 ht.le) (by positivity)
  have hq_te : (0:ℚ) ≤ ste / (st + ste + sva) * n :=
    mul_nonneg (div_nonneg h1 ht.le) (by positivity)
  have hf_tr : (0:Int) ≤ ⌊st / (st + ste + sva) * n⌋ := Int.floor_nonneg.mpr hq_tr
  have hf_te : (0:Int) ≤ ⌊ste / (st + ste + sva) * n⌋ := Int.floor_nonneg.mpr hq_te
  have htr_le_n : ⌊st / (st + ste + sva) * n⌋ ≤ (n : Int) := by
    have hle1 : st / (st + ste + sva) ≤ 1 := (div_le_one ht).mpr (by linarith)
    have hq : st / (st + ste + sva) * n ≤ (n : ℚ) := by
      calc st / (st + ste + sva) * n ≤ 1 * n :=
            mul_le_mul_of_nonneg_right hle1 (by positivity)
        _ = n := one_mul _
    calc ⌊st / (st + ste + sva) * n⌋ ≤ ⌊(n : ℚ)⌋ := Int.floor_le_floor hq
      _ = n := Int.floor_natCast n
  have hsum_le_n : ⌊st / (st + ste + sva) * n⌋ + ⌊ste / (st + ste + sva) * n⌋ ≤ (n : Int) := by
    have hab : st / (st + ste + sva) + ste / (st + ste + sva) ≤ 1 := by
      rw [div_add_div_same]
      exact (div_le_one ht).mpr (by linarith)
    have hq : st / (st + ste + sva) * n + ste / (st + ste + sva) * n ≤ (n : ℚ) := by
      calc st / (st + ste + sva) * n + ste / (st + ste + sva) * n
          = (st / (st + ste + sva) + ste / (st + ste + sva)) * n := by ring
        _ ≤ 1 * n := mul_le_mul_of_nonneg_right hab (by positivity)
        _ = n := one_mul _
    have hcast : ((⌊st / (st + ste + sva) * n⌋ + ⌊ste / (st + ste + sva) * n⌋ : Int) : ℚ)
        ≤ (n : ℚ) := by
      push_cast
      have hfl1 := Int.floor_le (st / (st + ste + sva) * n)
      have hfl2 := Int.floor_le (ste / (st + ste + sva) * n)
      linarith
    exact_mod_cast hcast
  have hstrict : 0 < sva → 0 < n →
      ⌊st / (st + ste + sva) * n⌋ + ⌊ste / (st + ste + sva) * n⌋ < (n : Int) := by
    intro hsva hn
    have hab : st / (st + ste + sva) + ste / (st + ste + sva) < 1 := by
      rw [div_add_div_same]
      exact (div_lt_one ht).mpr (by linarith)
    have hnq : (0:ℚ) < n := by exact_mod_cast hn
    have hq : st / (st + ste + sva) * n + ste / (st + ste + sva) * n < (n : ℚ) := by
      calc st / (st + ste + sva) * n + ste / (st + ste + sva) * n
          = (st / (st + ste + sva) + ste / (st + ste + sva)) * n := by ring
        _ < 1 * n := by exact mul_lt_mul_of_pos_right hab hnq
        _ = n := one_mul _
    have hcast : ((⌊st / (st + ste + sva) * n⌋ + ⌊ste / (st + ste + sva) * n⌋ : Int) : ℚ)
        < (n : ℚ) := by
      push_cast
      have hfl1 := Int.floor_le (st / (st + ste + sva) * n)
      have hfl2 := Int.floor_le (ste / (st + ste + sva) * n)
      linarith
    exact_mod_cast hcast
  rcases eq_or_lt_of_le h2 with hz | hsva
  · have hcond : ¬ 0 < sva / (st + ste + sva) := by
      rw [← hz]
      simp
    unfold splitNums
    rw [if_neg hcond, pyTrunc_of_nonneg _ hq_tr]
    refine ⟨hf_tr, by simpa using htr_le_n, le_refl 0, by ring, rfl, ?_, fun _ => rfl⟩
    intro hpos
    exact absurd hpos (by rw [← hz]; simp)
  · have hcond : 0 < sva / (st + ste + sva) := div_pos hsva ht
    unfold splitNums
    rw [if_pos hcond, pyTrunc_of_nonneg _ hq_tr, pyTrunc_of_nonneg _ hq_te]
    refine ⟨hf_tr, hf_te, by dsimp only; omega, by dsimp only; ring, rfl, ?_, ?_⟩
    · refine fun _ => ⟨rfl, fun hn => ?_⟩
      have := hstrict hsva hn
      dsimp only
      omega
    · intro hzero
      exact absurd hsva (by rw [hzero]; simp)

theorem select_nil {G : Type} (l : List Nat) : select ([] : List G) l = [] := by
  induction l with
  | nil => rfl
  | cons i t ih =>
    unfold select at ih ⊢
    rw [List.filterMap_cons]
    simp only [List.getElem?_nil]
    exact ih

theorem splitNoGid_three_eval {G : Type} (graphs : List G) (idxs : List Nat)
    (nums : Int × Int × Int) (hlen : idxs.length = graphs.length)
    (hn1 : 0 ≤ nums.1) (hn2 : 0 ≤ nums.2.1) (hn3 : 0 < nums.2.2)
    (hsum : nums.1 + nums.2.1 + nums.2.2 = (graphs.length : Int)) :
    splitNoGid graphs idxs nums =
      SplitResult.three (select graphs (idxs.take nums.1.toNat))
        (select graphs ((idxs.take (nums.1.toNat + nums.2.1.toNat)).drop nums.1.toNat))
        (select graphs (idxs.drop (nums.1.toNat + nums.2.1.toNat))) := by
  have ep0 : pyIdx idxs.length 0 = 0 := by
    unfold pyIdx
    simp
  have ep1 : pyIdx idxs.length nums.1 = nums.1.toNat := by
    unfold pyIdx
    rw [if_pos hn1, hlen]
    omega
  have ep2 : pyIdx idxs.length (nums.1 + nums.2.1) = nums.1.toNat + nums.2.1.toNat := by
    unfold pyIdx
    rw [if_pos (by omega), hlen]
    omega
  have ep3 : pyIdx idxs.length (nums.1 + nums.2.1 + nums.2.2) = idxs.length := by
    unfold pyIdx
    rw [if_pos (by omega), hlen]
    omega
  unfold splitNoGid pySlice
  rw [if_pos hn3, ep0, ep1, ep2, ep3, List.drop_zero, List.take_length]

theorem splitNoGid_two_eval {G : Type} (graphs : List G) (idxs : List Nat)
    (nums : Int × Int × Int) (hlen : idxs.length = graphs.length)
    (hn1 : 0 ≤ nums.1) (hle : nums.1 ≤ (graphs.length : Int)) (hn3 : ¬ 0 < nums.2.2) :
    splitNoGid graphs idxs nums =
      SplitResult.two (select graphs (idxs.take nums.1.toNat))
        (select graphs (idxs.drop nums.1.toNat)) := by
  have ep0 : pyIdx idxs.length 0 = 0 := by
    unfold pyIdx
    simp
  have ep1 : pyIdx idxs.length nums.1 = nums.1.toNat := by
    unfold pyIdx
    rw [if_pos hn1, hlen]
    omega
  have ep3 : pyIdx idxs.length (graphs.length : Int) = idxs.length := by
    unfold pyIdx
    rw [if_pos (by omega), hlen]
    omega
  unfold splitNoGid pySlice
  rw [if_neg hn3, ep0, ep1, ep3, List.drop_zero, List.take_length]

/-- C3: splitting `n` graphs without graph-id partitioning (nonnegative
proportions with positive total; the seeded index order is a permutation of
`0..n-1`): the train subset has exactly `⌊p_train/total * n⌋` graphs; when a
validation subset is requested (`p_validation > 0`) and the collection is
nonempty, three subsets come back, the test subset has exactly
`⌊p_test/total * n⌋` graphs and the validation subset absorbs the
integer-rounding remainder; without a requested validation subset two
subsets come back and the test subset absorbs the remainder; in every case
the returned subsets together contain every graph exactly once (their
concatenation is a permutation of the collection, hence pairwise disjoint
as index sets). -/
theorem split_no_gid_partition {G GS : Type} (graphs : List G) (getId : G → Option String)
    (st ste sva : ℚ) (seed : PySeed) (permFn : Nat → Nat → List Nat) (gstate : GS)
    (gShuffle : GS → Option Nat → List String → List String)
    (h0 : 0 ≤ st) (h1 : 0 ≤ ste) (h2 : 0 ≤ sva) (ht : 0 < st + ste + sva)
    (hperm : (splitIdxList seed permFn graphs.length).Perm (List.range graphs.length)) :
    (0 < sva → 0 < graphs.length →
      ∃ tr te va,
        splitTestTrainValidation graphs getId st ste sva false seed permFn gstate gShuffle =
          SplitResult.three tr te va ∧
        tr.length = (⌊st / (st + ste + sva) * graphs.length⌋).toNat ∧
        te.length = (⌊ste / (st + ste + sva) * graphs.length⌋).toNat ∧
        va.length = graphs.length - tr.length - te.length ∧
        (tr ++ te ++ va).Perm graphs) ∧
    (sva = 0 →
      ∃ tr te,
        splitTestTrainValidation graphs getId st ste sva false seed permFn gstate gShuffle =
          SplitResult.two tr te ∧
        tr.length = (⌊st / (st + ste + sva) * graphs.length⌋).toNat ∧
        te.length = graphs.length - tr.length ∧
        (tr ++ te).Perm graphs) ∧
    (0 < sva → graphs = [] →
      splitTestTrainValidation graphs getId st ste sva false seed permFn gstate gShuffle =
        SplitResult.two [] []) := by
  have htne : st + ste + sva ≠ 0 := ht.ne'
  have heval := split_eval_no_gid graphs getId st ste sva seed permFn gstate gShuffle htne
  obtain ⟨ha1, ha2, ha3, hsum, htr_eq, hpos_spec, hzero_spec⟩ :=
    splitNums_spec st ste sva graphs.length h0 h1 h2 ht
  have hlenidx : (splitIdxList seed permFn graphs.length).length = graphs.length :=
    hperm.length_eq.trans (List.length_range _)
  have hmem : ∀ i ∈ splitIdxList seed permFn graphs.length, i < graphs.length :=
    fun i hi => List.mem_range.mp (hperm.mem_iff.mp hi)
  have hselperm : (select graphs (splitIdxList seed permFn graphs.length)).Perm graphs := by
    have h := select_perm graphs hperm
    rwa [select_range_eq_take, List.take_length] at h
  refine ⟨?_, ?_, ?_⟩
  · intro hsva hn
    obtain ⟨hte_eq, hval_pos⟩ := hpos_spec hsva
    have hv := hval_pos hn
    set idxs := splitIdxList seed permFn graphs.length with hidxs
    set nums := splitNums st ste sva graphs.length with hnums
    have h3 := splitNoGid_three_eval graphs idxs nums hlenidx ha1 ha2 hv hsum
    refine ⟨_, _, _, heval.trans h3, ?_, ?_, ?_, ?_⟩
    · rw [length_select graphs _ (fun i hi => hmem i (List.take_subset _ _ hi)),
        List.length_take, hlenidx]
      omega
    · rw [length_select graphs _
        (fun i hi => hmem i (List.take_subset _ _ (List.drop_subset _ _ hi))),
        List.length_drop, List.length_take, hlenidx]
      omega
    · rw [length_select graphs _ (fun i hi => hmem i (List.drop_subset _ _ hi)),
        List.length_drop, hlenidx,
        length_select graphs _ (fun i hi => hmem i (List.take_subset _ _ hi)),
        List.length_take, hlenidx,
        length_select graphs _
          (fun i hi => hmem i (List.take_subset _ _ (List.drop_subset _ _ hi))),
        List.length_drop, List.length_take, hlenidx]
      omega
    · rw [← select_append, ← select_append]
      have hcat : (idxs.take nums.1.toNat ++
          (idxs.take (nums.1.toNat + nums.2.1.toNat)).drop nums.1.toNat) ++
          idxs.drop (nums.1.toNat + nums.2.1.toNat) = idxs := by
        have h5 : idxs.take nums.1.toNat =
            (idxs.take (nums.1.toNat + nums.2.1.toNat)).take nums.1.toNat := by
          rw [List.take_take]
          congr 1
          omega
        rw [h5, List.take_append_drop, List.take_append_drop]
      rw [hcat]
      exact hselperm
  · intro hzero
    have hv : ¬ 0 < (splitNums st ste sva graphs.length).2.2 := by
      rw [hzero_spec hzero]
      omega
    set idxs := splitIdxList seed permFn graphs.length with hidxs
    set nums := splitNums st ste sva graphs.length with hnums
    have hle : nums.1 ≤ (graphs.length : Int) := by omega
    have h2e := splitNoGid_two_eval graphs idxs nums hlenidx ha1 hle hv
    refine ⟨_, _, heval.trans h2e, ?_, ?_, ?_⟩
    · rw [length_select graphs _ (fun i hi => hmem i (List.take_subset _ _ hi)),
        List.length_take, hlenidx]
      omega
    · rw [length_select graphs _ (fun i hi => hmem i (List.drop_subset _ _ hi)),
        List.length_drop, hlenidx,
        length_select graphs _ (fun i hi => hmem i (List.take_subset _ _ hi)),
        List.length_take, hlenidx]
      omega
    · rw [← select_append, List.take_append_drop]
      exact hselperm
  · intro hsva hempty
    subst hempty
    rw [heval]
    have hz : ((([] : List G).length : Nat) : Int) = 0 := by simp
    have hle : (splitNums st ste sva ([] : List G).length).1 ≤
        ((([] : List G).length : Nat) : Int) := by omega
    have hv : ¬ 0 < (splitNums st ste sva ([] : List G).length).2.2 := by omega
    rw [splitNoGid_two_eval [] _ _ hlenidx ha1 hle hv, select_nil, select_nil]

/-- Witness for C3: splitting 3 graphs 1/1/0 without graph ids yields two
subsets of sizes `⌊3/2⌋ = 1` and `2` covering every graph exactly once. -/
theorem split_no_gid_partition_witness :
    ∃ tr te,
      splitTestTrainValidation ["a", "b", "c"] (fun _ => (none : Option String))
          1 1 0 false .pyNone (fun _ n => List.range n) () (fun _ _ l => l) =
        SplitResult.two tr te ∧
      tr.length = (⌊(1:ℚ) / (1 + 1 + 0) * (["a", "b", "c"] : List String).length⌋).toNat ∧
      te.length = (["a", "b", "c"] : List String).length - tr.length ∧
      (tr ++ te).Perm ["a", "b", "c"] :=
  (split_no_gid_partition ["a", "b", "c"] (fun _ => none) 1 1 0 .pyNone
      (fun _ n => List.range n) () (fun _ _ l => l)
      zero_le_one zero_le_one (le_refl 0) (by simp)
      (List.Perm.refl _)).2.1 rfl

/-- C10: with `by_graph_id=False` and a falsy `random_seed` — `None`,
`False`, or the integer `0`, which Python truthiness treats as the absence
of a seed rather than as the seed zero — no permutation is applied at all:
the returned subsets are contiguous slices of the collection in its
original order (whatever seeded permutation function numpy would supply is
never consulted). -/
theorem split_falsy_seed_contiguous {G GS : Type} (graphs : List G)
    (getId : G → Option String) (st ste sva : ℚ) (seed : PySeed)
    (permFn : Nat → Nat → List Nat) (gstate : GS)
    (gShuffle : GS → Option Nat → List String → List String)
    (hseed : seed.truthy = false)
    (h0 : 0 ≤ st) (h1 : 0 ≤ ste) (h2 : 0 ≤ sva) (ht : 0 < st + ste + sva) :
    (0 < sva → 0 < graphs.length →
      splitTestTrainValidation graphs getId st ste sva false seed permFn gstate gShuffle =
        SplitResult.three
          (graphs.take (⌊st / (st + ste + sva) * graphs.length⌋).toNat)
          ((graphs.drop (⌊st / (st + ste + sva) * graphs.length⌋).toNat).take
            (⌊ste / (st + ste + sva) * graphs.length⌋).toNat)
          (graphs.drop ((⌊st / (st + ste + sva) * graphs.length⌋).toNat +
            (⌊ste / (st + ste + sva) * graphs.length⌋).toNat))) ∧
    (sva = 0 →
      splitTestTrainValidation graphs getId st ste sva false seed permFn gstate gShuffle =
        SplitResult.two
          (graphs.take (⌊st / (st + ste + sva) * graphs.length⌋).toNat)
          (graphs.drop (⌊st / (st + ste + sva) * graphs.length⌋).toNat)) := by
  have htne : st + ste + sva ≠ 0 := ht.ne'
  have heval := split_eval_no_gid graphs getId st ste sva seed permFn gstate gShuffle htne
  have hidx : splitIdxList seed permFn graphs.length = List.range graphs.length := by
    unfold splitIdxList
    rw [hseed]
    simp
  obtain ⟨ha1, ha2, ha3, hsum, htr_eq, hpos_spec, hzero_spec⟩ :=
    splitNums_spec st ste sva graphs.length h0 h1 h2 ht
  have hlenr : (List.range graphs.length).length = graphs.length := List.length_range _
  constructor
  · intro hsva hn
    obtain ⟨hte_eq, hval_pos⟩ := hpos_spec hsva
    have hv := hval_pos hn
    rw [heval, hidx,
      splitNoGid_three_eval graphs (List.range graphs.length) _ hlenr ha1 ha2 hv hsum]
    have e1 : select graphs
        ((List.range graphs.length).take (splitNums st ste sva graphs.length).1.toNat) =
        graphs.take (splitNums st ste sva graphs.length).1.toNat := by
      rw [List.take_range, min_eq_left (by omega), select_range_eq_take]
    have e2 : select graphs
        (((List.range graphs.length).take ((splitNums st ste sva graphs.length).1.toNat +
            (splitNums st ste sva graphs.length).2.1.toNat)).drop
          (splitNums st ste sva graphs.length).1.toNat) =
        (graphs.drop (splitNums st ste sva graphs.length).1.toNat).take
          (splitNums st ste sva graphs.length).2.1.toNat := by
      rw [List.take_range, min_eq_left (by omega), drop_range, select_range']
      congr 1
      omega
    have e3 : select graphs
        ((List.range graphs.length).drop ((splitNums st ste sva graphs.length).1.toNat +
          (splitNums st ste sva graphs.length).2.1.toNat)) =
        graphs.drop ((splitNums st ste sva graphs.length).1.toNat +
          (splitNums st ste sva graphs.length).2.1.toNat) := by
      rw [drop_range, select_range']
      apply List.take_of_length_le
      rw [List.length_drop]
    rw [e1, e2, e3, htr_eq, hte_eq]
  · intro hzero
    have hv : ¬ 0 < (splitNums st ste sva graphs.length).2.2 := by
      rw [hzero_spec hzero]
      omega
    have hle : (splitNums st ste sva graphs.length).1 ≤ (graphs.length : Int) := by omega
    rw [heval, hidx,
      splitNoGid_two_eval graphs (List.range graphs.length) _ hlenr ha1 hle hv]
    have e1 : select graphs
        ((List.range graphs.length).take (splitNums st ste sva graphs.length).1.toNat) =
        graphs.take (splitNums st ste sva graphs.length).1.toNat := by
      rw [List.take_range, min_eq_left (by omega), select_range_eq_take]
    have e2 : select graphs
        ((List.range graphs.length).drop (splitNums st ste sva graphs.length).1.toNat) =
        graphs.drop (splitNums st ste sva graphs.length).1.toNat := by
      rw [drop_range, select_range']
      apply List.take_of_length_le
      rw [List.length_drop]
    rw [e1, e2, htr_eq]

/-- Witness for C10 at a concrete input: the integer seed `0` with an
adversarial permutation function (reversal) still yields the contiguous
unpermuted slices — seed `0` reads as the absence of a seed. -/
theorem split_falsy_seed_contiguous_witness :
    splitTestTrainValidation ["w", "x", "y", "z"] (fun _ => (none : Option String))
        1 1 0 false (.pyInt 0) (fun _ n => (List.range n).reverse) () (fun _ _ l => l) =
      SplitResult.two
        ((["w", "x", "y", "z"] : List String).take
          (⌊(1:ℚ) / (1 + 1 + 0) * (["w", "x", "y", "z"] : List String).length⌋).toNat)
        ((["w", "x", "y", "z"] : List String).drop
          (⌊(1:ℚ) / (1 + 1 + 0) * (["w", "x", "y", "z"] : List String).length⌋).toNat) :=
  (split_falsy_seed_contiguous ["w", "x", "y", "z"] (fun _ => none) 1 1 0 (.pyInt 0)
      (fun _ n => (List.range n).reverse) () (fun _ _ l => l)
      rfl zero_le_one zero_le_one (le_refl 0) (by simp)).2 rfl

/-- C2, as the code actually behaves (the bug): with `by_graph_id=True`,
valid proportions `1/0/0` (`train ≥ test ≥ validation`) and one graph whose
graph id is the two-character string `"AB"`, the call *succeeds* yet the
graph lands in **no** returned subset: line 231 truncates every graph's id
to its first character (`g.get("id")[0]`, giving `"A"`), while the fill
loops and the train membership test compare against the *full* ids in
`unique_graph_ids` (`"AB"`), so nothing ever matches.  The claim that every
graph carrying an id appears in exactly one returned subset is violated. -/
theorem split_by_graph_id_omits_graph :
    ∃ tr te,
      splitTestTrainValidation ["AB"] (fun s => some s) 1 0 0 true .pyNone
          (fun _ _ => []) () (fun _ _ l => l) = SplitResult.two tr te ∧
      "AB" ∉ tr ∧ "AB" ∉ te := by
  refine ⟨[], [], ?_, by simp, by simp⟩
  have hnums : splitNums 1 0 0 (["AB"] : List String).length = (1, 0, 0) := by
    have hq : (1:ℚ) / (1 + 0 + 0) * ((["AB"] : List String).length : ℚ) = 1 := by
      norm_num
    unfold splitNums
    rw [if_neg (by norm_num), hq, pyTrunc_of_nonneg 1 zero_le_one, Int.floor_one]
    norm_num
  unfold splitTestTrainValidation
  rw [if_neg (by norm_num), if_neg (by norm_num), if_neg (by decide)]
  rw [show ((["AB"].map (fun s => (some s : Option String))).filterMap (fun o => o)).dedup =
      ["AB"] from by decide]
  rw [List.mergeSort_singleton, hnums]
  decide

/-! ### BatchConverter chunking (`SoccerGraphConverterPolars.to_graph_frames`)

`to_graph_frames` iterates the converted dataframe in slices of
`chunk_size` rows (`iter_slices`), builds one dictionary per row of each
slice, and concatenates the per-chunk lists (`graph_list.extend`). -/

/-- One flattened per-frame record of `_convert`: the flattened adjacency,
node-feature and edge-feature arrays, their explicit shapes, the label and
the graph id. -/
structure FrameRec where
  a : List Int
  a0 : Nat
  a1 : Nat
  x : List ℚ
  x0 : Nat
  x1 : Nat
  e : List ℚ
  e0 : Nat
  e1 : Nat
  y : Int
  gid : String
deriving DecidableEq

/-- Modelled from the spec: `flatten_to_reshaped_array` (defined in
`unravel.utils`, whose source is not under `src/`) reconstructs the 2-D
`s0 × s1` matrix from a flattened array and its shape metadata, row-major. -/
def flatten_to_reshaped_array {α : Type} (arr : List α) (s0 s1 : Nat) : List (List α) :=
  (List.range s0).map (fun i => (arr.drop (i * s1)).take s1)

/-- Modelled from the spec: `make_sparse` (defined in `unravel.utils`,
whose source is not under `src/`) encodes a dense matrix sparsely by its
nonzero entries with their coordinates, in row-major order. -/
def make_sparse (m : List (List Int)) : List (Nat × Nat × Int) :=
  (m.enum).flatMap (fun r =>
    ((r.2.enum).filter (fun c => decide (c.2 ≠ 0))).map (fun c => (r.1, c.1, c.2)))

/-- One output record of `to_graph_frames`. -/
structure GraphOut where
  a : List (Nat × Nat × Int)
  x : List (List ℚ)
  e : List (List ℚ)
  y : List Int
  id : String
deriving DecidableEq

/-- The dictionary built for one row inside the chunk loop of
`to_graph_frames`. -/
def toGraphRecord (r : FrameRec) : GraphOut :=
  { a := make_sparse (flatten_to_reshaped_array r.a r.a0 r.a1)
    x := flatten_to_reshaped_array r.x r.x0 r.x1
    e := flatten_to_reshaped_array r.e r.e0 r.e1
    y := [r.y]
    id := r.gid }

/-- `iter_slices(chunk_size)`: consecutive slices of at most `c` rows
(faithful to polars for `c ≥ 1`). -/
def chunkSlices {α : Type} (c : Nat) : List α → List (List α)
  | [] => []
  | x :: xs => (x :: xs.take (c - 1)) :: chunkSlices c (xs.drop (c - 1))
termination_by l => l.length
decreasing_by
  simp only [List.length_drop, List.length_cons]
  omega

/-- `to_graph_frames`: convert the records chunk by chunk and concatenate
the per-chunk graph lists in order. -/
def toGraphFrames (c : Nat) (recs : List FrameRec) : List GraphOut :=
  (chunkSlices c recs).flatMap (fun chunk => chunk.map toGraphRecord)

theorem chunkSlices_flatten {α : Type} (c : Nat) :
    ∀ l : List α, (chunkSlices c l).flatten = l
  | [] => by
    rw [chunkSlices]
    rfl
  | x :: xs => by
    rw [chunkSlices, List.flatten_cons, chunkSlices_flatten c (xs.drop (c - 1)),
      List.cons_append, List.take_append_drop]
termination_by l => l.length
decreasing_by
  simp only [List.length_drop, List.length_cons]
  omega

/-- C7: for any two positive chunk sizes, `to_graph_frames` produces exactly
the same list of per-frame graph records, in the same order — the chunk
size never affects the output. -/
theorem toGraphFrames_chunk_invariant (c1 c2 : Nat) (recs : List FrameRec)
    (h1 : 0 < c1) (h2 : 0 < c2) :
    toGraphFrames c1 recs = toGraphFrames c2 recs := by
  have key : ∀ c : Nat, toGraphFrames c recs = recs.map toGraphRecord := by
    intro c
    unfold toGraphFrames
    rw [List.flatMap_def, ← List.map_flatten, chunkSlices_flatten]
  rw [key c1, key c2]

/-- A concrete record: a 2×2 adjacency with two nonzero entries, a 2×1
node-feature matrix and a 2×2 edge-feature matrix. -/
def sampleRec : FrameRec :=
  { a := [1, 0, 0, 1], a0 := 2, a1 := 2, x := [5, 7], x0 := 2, x1 := 1,
    e := [1, 2, 3, 4], e0 := 2, e1 := 2, y := 1, gid := "g1" }

/-- Witness for C7: chunk sizes 1 and 3 give identical output on a concrete
two-record dataset. -/
theorem toGraphFrames_chunk_invariant_witness :
    toGraphFrames 1 [sampleRec, sampleRec] = toGraphFrames 3 [sampleRec, sampleRec] :=
  toGraphFrames_chunk_invariant 1 3 [sampleRec, sampleRec] (by decide) (by decide)

end Unravel
